import Mathlib

/-!
# Debouncer (`src/debouncer.h`)

A shallow embedding of the `Debouncer<T>` state machine and of the
`DebouncedSwitch` built on it.  Each method of a class becomes a function on
an explicit state record; the pin level read by the switch is an argument.  The clock reading
(`millis()` on the target) is passed to `debounce` as the argument `now`.

The value type `T` of the template carries its own inequality operator; it is
embedded as a type with `BEq`, the source's `value != m_value` being Lean's
`value != m_value`.  A theorem that needs the comparison to agree with
equality assumes `LawfulBEq`; the others hold for any comparison.

Clock readings and durations are natural numbers: the clock is an ideal
monotonic one, and the time elapsed since a reference point is `now - startTime`.
-/

namespace Debounce

/-! ## Timer (collaborator) -/

/-- Modelled from the spec: the `Timer` class of `lib/timer/timer.h`, which the
header includes but which is not part of the sources.  Spec section 4.1: a
restartable countdown with a configured duration, a started/not-started state
and a reference point. -/
structure Timer where
  /-- Configured duration (the threshold), in clock ticks. -/
  duration : Nat
  /-- Whether the timer has been started since construction or the last reset. -/
  running : Bool
  /-- Reference point of the countdown. -/
  startTime : Nat
  deriving DecidableEq, Repr

namespace Timer

/-- Modelled from the spec: `Timer(threshold)`, a timer with the given
duration in the not-started state. -/
def new (duration : Nat) : Timer :=
  { duration := duration, running := false, startTime := 0 }

/-- Modelled from the spec: `restart()` forces the reference point to now,
discarding prior progress. -/
def restart (t : Timer) (now : Nat) : Timer :=
  { t with running := true, startTime := now }

/-- Modelled from the spec: `start()` begins counting from now if the timer is
not already counting; it does not move the reference point of a running
timer. -/
def start (t : Timer) (now : Nat) : Timer :=
  if t.running then t else t.restart now

/-- Modelled from the spec: `reset()` clears the timer to the not-started
state (the duration is kept). -/
def reset (t : Timer) : Timer :=
  { t with running := false }

/-- Modelled from the spec: `check()`, the elapsed check, true once the
configured duration has passed since the last start or restart. -/
def check (t : Timer) (now : Nat) : Bool :=
  t.running && decide (t.duration ≤ now - t.startTime)

/-- Modelled from the spec: the boolean conversion of the timer, "is a nonzero
duration configured"; `!m_timer` is the zero-threshold test. -/
def isSet (t : Timer) : Bool :=
  t.duration != 0

/-- Modelled from the spec: `setDuration(d)` stores the duration. -/
def setDuration (t : Timer) (d : Nat) : Timer :=
  { t with duration := d }

/-- Modelled from the spec: `getDuration()` returns the stored duration. -/
def getDuration (t : Timer) : Nat :=
  t.duration

end Timer

/-! ## Debouncer -/

/-- The data members of `Debouncer<T>` (`debouncer.h`, lines 36-40). -/
structure Debouncer (T : Type) where
  /-- Last recorded raw value. -/
  m_value : T
  /-- Processed debounced value. -/
  m_debounced : T
  /-- State changed flag (persistent until queried). -/
  m_changed : Bool
  /-- Flag indicating that a valid value has been processed. -/
  m_ready : Bool
  /-- Internal timer. -/
  m_timer : Timer

namespace Debouncer

variable {T : Type}

/-- The constructor `Debouncer(threshold)`: both values are value-initialised,
both flags start false, the timer gets the threshold. -/
def new [Inhabited T] (threshold : Nat) : Debouncer T :=
  { m_value := default, m_debounced := default, m_changed := false,
    m_ready := false, m_timer := Timer.new threshold }

/-- The getter `isReady()`. -/
def isReady (d : Debouncer T) : Bool := d.m_ready

/-- The getter `getDebounced()`. -/
def getDebounced (d : Debouncer T) : T := d.m_debounced

/-- The getter `getRaw()`. -/
def getRaw (d : Debouncer T) : T := d.m_value

/-- The setter `setThreshold(threshold)`. -/
def setThreshold (d : Debouncer T) (threshold : Nat) : Debouncer T :=
  { d with m_timer := d.m_timer.setDuration threshold }

/-- The getter `getThreshold()`. -/
def getThreshold (d : Debouncer T) : Nat := d.m_timer.getDuration

/-- The method `debounce(value)` (lines 44-61), called when the clock reads
`now`. -/
def debounce [BEq T] (d : Debouncer T) (now : Nat) (value : T) : Debouncer T :=
  -- m_timer.start();
  let d1 : Debouncer T := { d with m_timer := d.m_timer.start now }
  -- if (value != m_value) { m_timer.restart(); m_value = value; }
  let d2 : Debouncer T :=
    if value != d1.m_value then
      { d1 with m_timer := d1.m_timer.restart now, m_value := value }
    else d1
  -- if (!m_timer || m_timer.check()) { ... }
  if !d2.m_timer.isSet || d2.m_timer.check now then
    -- if (m_debounced != m_value) { m_debounced = m_value; m_changed |= m_ready; }
    let d3 : Debouncer T :=
      if d2.m_debounced != d2.m_value then
        { d2 with m_debounced := d2.m_value, m_changed := d2.m_changed || d2.m_ready }
      else d2
    -- m_ready = true;
    { d3 with m_ready := true }
  else d2

/-- The method `reset()` (lines 63-67). -/
def reset (d : Debouncer T) : Debouncer T :=
  { d with m_ready := false, m_changed := false, m_timer := d.m_timer.reset }

/-- The method `hasChanged()` (lines 69-75): the returned flag and the state
left behind. -/
def hasChanged (d : Debouncer T) : Bool × Debouncer T :=
  (d.m_changed, { d with m_changed := false })

end Debouncer

/-! ## Call sequences -/

/-- One call on a debouncer: `debounce(value)` at clock reading `now`,
`hasChanged()`, `reset()` or `setThreshold(threshold)`. -/
inductive Op (T : Type) where
  | debounce (now : Nat) (value : T)
  | hasChanged
  | reset
  | setThreshold (threshold : Nat)

namespace Debouncer

variable {T : Type}

/-- The state after one call. -/
def step [BEq T] (d : Debouncer T) : Op T → Debouncer T
  | .debounce now value => d.debounce now value
  | .hasChanged => d.hasChanged.2
  | .reset => d.reset
  | .setThreshold threshold => d.setThreshold threshold

/-- The state after a sequence of calls, first call first. -/
def run [BEq T] (d : Debouncer T) (ops : List (Op T)) : Debouncer T :=
  ops.foldl step d

/-- The state after a sequence of `debounce` calls, each a clock reading and a
value, first call first. -/
def pushAll [BEq T] (d : Debouncer T) (calls : List (Nat × T)) : Debouncer T :=
  calls.foldl (fun s c => s.debounce c.1 c.2) d

/-- Whether the commit branch of `debounce(value)` at `now` is taken: after the
start/restart handling of the call the threshold is zero or the timer has
elapsed (the condition of line 53). -/
def commits [BEq T] (d : Debouncer T) (now : Nat) (value : T) : Bool :=
  let t1 := d.m_timer.start now
  let t2 := if value != d.m_value then t1.restart now else t1
  !t2.isSet || t2.check now

/-- The calls of a chattering sequence: each pushed value differs (by the
comparison of line 47) from the raw value held just before its call. -/
def chatter [BEq T] (d : Debouncer T) : List (Nat × T) → Bool
  | [] => true
  | c :: cs => (c.2 != d.getRaw) && chatter (d.debounce c.1 c.2) cs

/-- A change event: the call is a `debounce` that commits a value different
from the debounced value held at that moment, while `isReady()` is already
true before the call. -/
def changeEvent [BEq T] (d : Debouncer T) : Op T → Bool
  | .debounce now value => d.isReady && d.commits now value && (value != d.getDebounced)
  | _ => false

/-- The calls that end a flag epoch: `reset()` and `hasChanged()`. -/
def clearsFlag : Op T → Bool
  | .hasChanged => true
  | .reset => true
  | _ => false

/-- The sticky flag as the spec words it: since the most recent of
construction (the state `d0`), `reset()` or `hasChanged()`, some call of the
sequence was a change event. -/
def pendingChange [BEq T] (d0 : Debouncer T) (ops : List (Op T)) : Prop :=
  ∃ pre op post, ops = pre ++ op :: post ∧ changeEvent (d0.run pre) op = true ∧
    ∀ o ∈ post, clearsFlag o = false

/-- The timer of `debounce(value)` at `now` after the start/restart handling of
lines 46-50, which is the timer the elapsed check of line 53 reads. -/
def timerAfterStart [BEq T] (d : Debouncer T) (now : Nat) (value : T) : Timer :=
  if value != d.m_value then (d.m_timer.start now).restart now else d.m_timer.start now

end Debouncer

/-! ## DebouncedSwitch -/

/-- Modelled from the spec: the pin level `LOW` of `Arduino.h`, which the header
includes but which is not part of the sources; its value is 0. -/
def LOW : Int := 0

/-- Modelled from the spec: the pin level `HIGH` of `Arduino.h`, which the header
includes but which is not part of the sources; its value is 1. -/
def HIGH : Int := 1

/-- The integral promotion of a `bool` compared with an `int`: `true` is 1,
`false` is 0. -/
def boolAsInt (b : Bool) : Int :=
  if b then 1 else 0

/-- The class `DebouncedSwitch` (lines 79-92): a `Debouncer<bool>` with a pin
number and a pull-up flag. -/
structure DebouncedSwitch extends Debouncer Bool where
  /-- The pin number. -/
  m_pin : Nat
  /-- Whether the input is wired with a pull-up. -/
  m_pullup : Bool

namespace DebouncedSwitch

/-- The constructor `DebouncedSwitch(pin, threshold, pullup)`. -/
def new (pin : Nat) (threshold : Nat) (pullup : Bool) : DebouncedSwitch :=
  { toDebouncer := Debouncer.new threshold, m_pin := pin, m_pullup := pullup }

/-- The method `debounce()` (line 85), called when the clock reads `now` and
`digitalRead(m_pin)` returns `level`: the level is compared with the promoted
pull-up flag, and `LOW` or `HIGH`, converted to `bool`, is pushed. -/
def debounce (s : DebouncedSwitch) (now : Nat) (level : Int) : DebouncedSwitch :=
  -- Debouncer::debounce(digitalRead(m_pin) == m_pullup ? LOW : HIGH);
  let value : Int := if level = boolAsInt s.m_pullup then LOW else HIGH
  { s with toDebouncer := s.toDebouncer.debounce now (value != 0) }

/-- The method `isOpen()` (line 86). -/
def isOpen (s : DebouncedSwitch) : Bool := !s.toDebouncer.getDebounced

/-- The method `isClosed()` (line 87). -/
def isClosed (s : DebouncedSwitch) : Bool := s.toDebouncer.getDebounced

end DebouncedSwitch

/-! ## Basic facts about one `debounce` call -/

namespace Timer

@[simp] theorem restart_duration (t : Timer) (now : Nat) : (t.restart now).duration = t.duration :=
  rfl

@[simp] theorem start_duration (t : Timer) (now : Nat) : (t.start now).duration = t.duration := by
  unfold start
  split <;> rfl

@[simp] theorem restart_running (t : Timer) (now : Nat) : (t.restart now).running = true :=
  rfl

@[simp] theorem start_running (t : Timer) (now : Nat) : (t.start now).running = true := by
  unfold start
  split
  · assumption
  · rfl

@[simp] theorem restart_startTime (t : Timer) (now : Nat) : (t.restart now).startTime = now :=
  rfl

theorem check_restart (t : Timer) (now : Nat) (h : 0 < t.duration) :
    (t.restart now).check now = false := by
  simp [check, restart]
  omega

theorem isSet_eq_false_iff (t : Timer) : t.isSet = false ↔ t.duration = 0 := by
  simp [isSet]

end Timer

namespace Debouncer

variable {T : Type}

theorem debounce_m_timer [BEq T] (d : Debouncer T) (now : Nat) (v : T) :
    (d.debounce now v).m_timer =
      if v != d.m_value then (d.m_timer.start now).restart now else d.m_timer.start now := by
  unfold debounce
  dsimp only
  split_ifs <;> rfl

theorem debounce_m_value [BEq T] [LawfulBEq T] (d : Debouncer T) (now : Nat) (v : T) :
    (d.debounce now v).m_value = v := by
  unfold debounce
  dsimp only
  split_ifs <;> simp_all

theorem debounce_of_commits [BEq T] [LawfulBEq T] (d : Debouncer T) (now : Nat) (v : T)
    (hc : d.commits now v = true) :
    (d.debounce now v).m_debounced = v ∧ (d.debounce now v).m_ready = true ∧
      (d.debounce now v).m_changed = (d.m_changed || (d.m_ready && (d.m_debounced != v))) := by
  unfold commits at hc
  unfold debounce
  dsimp only at hc ⊢
  cases h1 : (v != d.m_value)
  · have hv2 : d.m_value = v := ((bne_eq_false_iff_eq).1 h1).symm
    simp only [h1, Bool.false_eq_true, if_false] at hc ⊢
    simp only [hc, if_true]
    rw [hv2]
    cases hb : (d.m_debounced != v) <;> simp_all
  · simp only [h1, if_true] at hc ⊢
    simp only [hc, if_true]
    cases hb : (d.m_debounced != v) <;> simp_all

theorem debounce_of_not_commits [BEq T] (d : Debouncer T) (now : Nat) (v : T)
    (hc : d.commits now v = false) :
    (d.debounce now v).m_debounced = d.m_debounced ∧
      (d.debounce now v).m_ready = d.m_ready ∧
      (d.debounce now v).m_changed = d.m_changed := by
  unfold commits at hc
  unfold debounce
  dsimp only at hc ⊢
  split_ifs at hc ⊢ <;> simp_all

theorem debounce_m_ready [BEq T] (d : Debouncer T) (now : Nat) (v : T) :
    (d.debounce now v).m_ready = (d.m_ready || d.commits now v) := by
  cases hc : d.commits now v
  · simpa using (debounce_of_not_commits d now v hc).2.1
  · unfold commits at hc
    unfold debounce
    dsimp only at hc ⊢
    split_ifs at hc ⊢ <;> simp_all

theorem debounce_getThreshold [BEq T] (d : Debouncer T) (now : Nat) (v : T) :
    (d.debounce now v).getThreshold = d.getThreshold := by
  unfold getThreshold Timer.getDuration
  rw [debounce_m_timer]
  split <;> simp

theorem commits_of_zero [BEq T] (d : Debouncer T) (now : Nat) (v : T)
    (h0 : d.getThreshold = 0) : d.commits now v = true := by
  unfold getThreshold Timer.getDuration at h0
  unfold commits
  dsimp only
  split <;> simp [Timer.isSet, h0]

theorem commits_of_ne [BEq T] (d : Debouncer T) (now : Nat) (v : T)
    (hD : 0 < d.getThreshold) (hne : (v != d.m_value) = true) : d.commits now v = false := by
  unfold getThreshold Timer.getDuration at hD
  unfold commits
  dsimp only
  rw [if_pos hne, Timer.check_restart _ _ (by simpa using hD)]
  simp [Timer.isSet]
  omega

theorem pushAll_cons [BEq T] (d : Debouncer T) (c : Nat × T) (cs : List (Nat × T)) :
    d.pushAll (c :: cs) = (d.debounce c.1 c.2).pushAll cs :=
  rfl

theorem pushAll_nil [BEq T] (d : Debouncer T) : d.pushAll [] = d :=
  rfl

/-- One unchanged push on a running timer: the timer and the raw value stay,
and the call commits exactly when the duration has elapsed since the reference
point. -/
theorem debounce_same_running [BEq T] [LawfulBEq T] (d : Debouncer T) (D t0 t : Nat)
    (hD : 0 < D) (ht : d.m_timer = ⟨D, true, t0⟩) :
    (d.debounce t d.m_value).m_timer = ⟨D, true, t0⟩ ∧
      d.commits t d.m_value = decide (D ≤ t - t0) := by
  constructor
  · rw [debounce_m_timer]
    simp [ht, Timer.start]
  · unfold commits
    simp [ht, Timer.start, Timer.isSet, Timer.check]
    omega

/-- The first push on a fresh debouncer with a positive threshold: the timer
runs from the time of the push and nothing is committed. -/
theorem debounce_new [BEq T] [LawfulBEq T] [Inhabited T] (D t0 : Nat) (v : T) (hD : 0 < D) :
    ((new D : Debouncer T).debounce t0 v).m_timer = ⟨D, true, t0⟩ ∧
      ((new D : Debouncer T).debounce t0 v).m_ready = false ∧
      ((new D : Debouncer T).debounce t0 v).m_debounced = default ∧
      ((new D : Debouncer T).debounce t0 v).m_changed = false := by
  have hc : (new D : Debouncer T).commits t0 v = false := by
    unfold commits
    dsimp only
    split <;> simp [new, Timer.new, Timer.start, Timer.restart, Timer.isSet, Timer.check] <;> omega
  refine ⟨?_, ?_⟩
  · rw [debounce_m_timer]
    split <;> simp [new, Timer.new, Timer.start, Timer.restart]
  · have h := debounce_of_not_commits _ t0 v hc
    exact ⟨h.2.1, h.1, h.2.2⟩

/-- Unchanged pushes at non-decreasing times on a timer running since `t0`:
readiness after the last push is decided by the time elapsed since `t0`. -/
theorem settle_invariant [BEq T] [LawfulBEq T] (D t0 : Nat) (v : T) (hD : 0 < D)
    (ts : List Nat) : ∀ (d : Debouncer T) (tl : Nat),
    d.m_value = v → d.m_timer = ⟨D, true, t0⟩ →
    (d.m_ready = true ↔ D ≤ tl - t0) → (d.m_ready = true → d.m_debounced = v) →
    List.Chain (· ≤ ·) tl ts →
    (((d.pushAll (ts.map (fun t => (t, v)))).m_ready = true ↔ D ≤ ts.getLastD tl - t0) ∧
      ((d.pushAll (ts.map (fun t => (t, v)))).m_ready = true →
        (d.pushAll (ts.map (fun t => (t, v)))).m_debounced = v)) := by
  induction ts with
  | nil =>
    intro d tl _ _ hr hd _
    exact ⟨hr, hd⟩
  | cons t ts ih =>
    intro d tl hv ht hr hd hch
    rw [List.chain_cons] at hch
    have hs := debounce_same_running d D t0 t hD ht
    rw [hv] at hs
    have hready := debounce_m_ready d t v
    rw [hs.2] at hready
    have hlast : (t :: ts).getLastD tl = ts.getLastD t := by
      cases ts <;> rfl
    rw [List.map_cons, pushAll_cons, hlast]
    refine ih (d.debounce t v) t (debounce_m_value d t v) hs.1 ?_ ?_ hch.2
    · rw [hready]
      simp only [Bool.or_eq_true, decide_eq_true_eq]
      constructor
      · rintro (h | h)
        · have := hr.1 h
          omega
        · exact h
      · exact Or.inr
    · intro h
      by_cases hc : D ≤ t - t0
      · exact (debounce_of_commits d t v (by rw [hs.2]; simpa using hc)).1
      · have hn := debounce_of_not_commits d t v (by rw [hs.2]; simpa using hc)
        rw [hn.1]
        apply hd
        rw [hready] at h
        simpa [hc] using h

/-- Unchanged pushes before the duration has elapsed on a timer running since
`t1` change nothing but keep the state un-ready. -/
theorem early_pushes_invariant [BEq T] [LawfulBEq T] (D t1 : Nat) (v : T) (hD : 0 < D)
    (ts : List Nat) : ∀ (d : Debouncer T),
    d.m_value = v → d.m_timer = ⟨D, true, t1⟩ → d.m_ready = false →
    (∀ s ∈ ts, s - t1 < D) →
    (d.pushAll (ts.map (fun t => (t, v)))).m_value = v ∧
      (d.pushAll (ts.map (fun t => (t, v)))).m_timer = ⟨D, true, t1⟩ ∧
      (d.pushAll (ts.map (fun t => (t, v)))).m_ready = false ∧
      (d.pushAll (ts.map (fun t => (t, v)))).m_debounced = d.m_debounced ∧
      (d.pushAll (ts.map (fun t => (t, v)))).m_changed = d.m_changed := by
  induction ts with
  | nil =>
    intro d hv ht hr _
    exact ⟨hv, ht, hr, rfl, rfl⟩
  | cons t ts ih =>
    intro d hv ht hr hts
    have hs := debounce_same_running d D t1 t hD ht
    rw [hv] at hs
    have ht1 : t - t1 < D := hts t (List.mem_cons_self _ _)
    have hc : d.commits t v = false := by
      rw [hs.2]
      simpa using ht1
    have hn := debounce_of_not_commits d t v hc
    rw [List.map_cons, pushAll_cons]
    have h := ih (d.debounce t v) (debounce_m_value d t v) hs.1 (by rw [hn.2.1]; exact hr)
      (fun s hs => hts s (List.mem_cons_of_mem _ hs))
    rw [hn.1, hn.2.2] at h
    exact h

/-- While un-ready, a `debounce` call leaves the changed flag as it is. -/
theorem debounce_m_changed_of_not_ready [BEq T] (d : Debouncer T) (now : Nat) (v : T)
    (hr : d.m_ready = false) : (d.debounce now v).m_changed = d.m_changed := by
  unfold debounce
  dsimp only
  split_ifs <;> simp [hr]

/-- A `debounce` call keeps "a pending change implies readiness". -/
theorem debounce_changed_imp_ready [BEq T] (d : Debouncer T) (now : Nat) (v : T)
    (h : d.m_changed = true → d.m_ready = true) :
    (d.debounce now v).m_changed = true → (d.debounce now v).m_ready = true := by
  intro hc
  rw [debounce_m_ready]
  cases hr : d.m_ready
  · rw [debounce_m_changed_of_not_ready d now v hr] at hc
    rw [h hc] at hr
    cases hr
  · rfl

theorem pushAll_changed_imp_ready [BEq T] (calls : List (Nat × T)) :
    ∀ d : Debouncer T, (d.m_changed = true → d.m_ready = true) →
      (d.pushAll calls).m_changed = true → (d.pushAll calls).m_ready = true := by
  induction calls with
  | nil => exact fun d h => h
  | cons c cs ih =>
    intro d h
    rw [pushAll_cons]
    exact ih _ (debounce_changed_imp_ready d c.1 c.2 h)

theorem run_snoc [BEq T] (d : Debouncer T) (ops : List (Op T)) (op : Op T) :
    d.run (ops ++ [op]) = (d.run ops).step op := by
  simp [run, List.foldl_append]

/-- The changed flag after one call: raised by a change event, cleared by
`reset()` and `hasChanged()`, kept otherwise. -/
theorem step_m_changed [BEq T] [LawfulBEq T] (d : Debouncer T) (op : Op T) :
    (d.step op).m_changed = (d.changeEvent op || (d.m_changed && !clearsFlag op)) := by
  cases op with
  | debounce now v =>
    simp only [step, changeEvent, clearsFlag, isReady, getDebounced]
    cases hc : d.commits now v
    · rw [(debounce_of_not_commits d now v hc).2.2]
      simp
    · rw [(debounce_of_commits d now v hc).2.2]
      have hsym : (v != d.m_debounced) = (d.m_debounced != v) := by
        cases h : (d.m_debounced != v)
        · rw [bne_eq_false_iff_eq] at h ⊢
          exact h.symm
        · rw [bne_iff_ne] at h ⊢
          exact h.symm
      rw [hsym]
      cases d.m_changed <;> cases d.m_ready <;> simp
  | hasChanged => simp [step, changeEvent, clearsFlag, hasChanged]
  | reset => simp [step, changeEvent, clearsFlag, reset]
  | setThreshold th => simp [step, changeEvent, clearsFlag, setThreshold]

/-- The spec-side flag after one more call. -/
theorem pendingChange_snoc [BEq T] (d0 : Debouncer T) (ops : List (Op T)) (x : Op T) :
    pendingChange d0 (ops ++ [x]) ↔
      (changeEvent (d0.run ops) x = true ∨ (pendingChange d0 ops ∧ clearsFlag x = false)) := by
  constructor
  · rintro ⟨pre, op, post, heq, hev, hpost⟩
    rcases List.eq_nil_or_concat post with hp | ⟨L, b, hp⟩
    · subst hp
      have h := List.append_inj' heq rfl
      have hx : x = op := by simpa using h.2
      left
      rw [h.1, hx]
      exact hev
    · rw [List.concat_eq_append] at hp
      subst hp
      have heq2 : ops ++ [x] = (pre ++ op :: L) ++ [b] := by
        rw [heq]
        simp
      have h := List.append_inj' heq2 rfl
      have hx : x = b := by simpa using h.2
      right
      refine ⟨⟨pre, op, L, h.1, hev, fun o ho => hpost o (by simp [ho])⟩, ?_⟩
      rw [hx]
      exact hpost b (by simp)
  · rintro (hev | ⟨⟨pre, op, post, heq, hev, hpost⟩, hx⟩)
    · exact ⟨ops, x, [], rfl, hev, by simp⟩
    · refine ⟨pre, op, post ++ [x], by rw [heq]; simp, hev, ?_⟩
      intro o ho
      rcases List.mem_append.1 ho with h | h
      · exact hpost o h
      · rw [List.mem_singleton.1 h]
        exact hx

/-- The sticky flag is the spec-side flag, from every start state with the flag
down. -/
theorem m_changed_iff_pendingChange [BEq T] [LawfulBEq T] (d0 : Debouncer T)
    (h0 : d0.m_changed = false) (ops : List (Op T)) :
    (d0.run ops).m_changed = true ↔ pendingChange d0 ops := by
  induction ops using List.reverseRecOn with
  | nil =>
    constructor
    · intro h
      rw [show d0.run [] = d0 from rfl, h0] at h
      cases h
    · rintro ⟨pre, op, post, heq, _⟩
      cases pre <;> cases heq
  | append_singleton xs x ih =>
    rw [run_snoc, step_m_changed, pendingChange_snoc, ← ih]
    cases (d0.run xs).changeEvent x <;> cases (d0.run xs).m_changed <;>
      cases clearsFlag x <;> simp

/-- The debounced value after one `debounce` call is the old one or the pushed
value, which is then also the raw value. -/
theorem debounce_m_debounced_cases [BEq T] [LawfulBEq T] (d : Debouncer T) (now : Nat) (v : T) :
    (d.debounce now v).m_debounced = d.m_debounced ∨
      ((d.debounce now v).m_debounced = v ∧
        (d.debounce now v).m_debounced = (d.debounce now v).m_value) := by
  cases hc : d.commits now v
  · exact Or.inl (debounce_of_not_commits d now v hc).1
  · right
    rw [(debounce_of_commits d now v hc).1, debounce_m_value]
    exact ⟨rfl, rfl⟩

/-- The debounced value after one call of any kind. -/
theorem step_m_debounced_cases [BEq T] [LawfulBEq T] (d : Debouncer T) (op : Op T) :
    (d.step op).m_debounced = d.m_debounced ∨
      ∃ now v, op = Op.debounce now v ∧ (d.step op).m_debounced = v := by
  cases op with
  | debounce now v =>
    rcases debounce_m_debounced_cases d now v with h | h
    · exact Or.inl h
    · exact Or.inr ⟨now, v, rfl, h.1⟩
  | hasChanged => exact Or.inl rfl
  | reset => exact Or.inl rfl
  | setThreshold th => exact Or.inl rfl

theorem commits_eq_timerAfterStart [BEq T] (d : Debouncer T) (now : Nat) (v : T) :
    d.commits now v =
      (!(d.timerAfterStart now v).isSet || (d.timerAfterStart now v).check now) :=
  rfl

theorem timerAfterStart_duration [BEq T] (d : Debouncer T) (now : Nat) (v : T) :
    (d.timerAfterStart now v).duration = d.m_timer.duration := by
  unfold timerAfterStart
  split <;> simp

theorem pushAll_append [BEq T] (d : Debouncer T) (xs ys : List (Nat × T)) :
    d.pushAll (xs ++ ys) = (d.pushAll xs).pushAll ys := by
  simp [pushAll, List.foldl_append]

/-- Every call keeps "a pending change implies readiness". -/
theorem step_changed_imp_ready [BEq T] (d : Debouncer T) (op : Op T)
    (h : d.m_changed = true → d.m_ready = true) :
    (d.step op).m_changed = true → (d.step op).m_ready = true := by
  cases op with
  | debounce now v => exact debounce_changed_imp_ready d now v h
  | hasChanged =>
    intro hc
    cases hc
  | reset =>
    intro hc
    cases hc
  | setThreshold th => exact h

/-- Every call but `reset()` keeps "un-ready implies the debounced value is
`x`". -/
theorem step_not_ready_debounced [BEq T] (d : Debouncer T) (op : Op T) (x : T)
    (hop : op ≠ Op.reset) (h : d.m_ready = false → d.m_debounced = x) :
    (d.step op).m_ready = false → (d.step op).m_debounced = x := by
  cases op with
  | debounce now v =>
    intro hr
    simp only [step] at hr ⊢
    rw [debounce_m_ready] at hr
    simp only [Bool.or_eq_false_iff] at hr
    rw [(debounce_of_not_commits d now v hr.2).1]
    exact h hr.1
  | hasChanged => exact h
  | reset => exact absurd rfl hop
  | setThreshold th => exact h

/-! ## The claims -/

/-- C1. Zero threshold means immediate commit: in every state whose threshold
is 0, whatever the raw and debounced values, the flags and the timer state, a
single `debounce(v)` at any clock reading leaves `getDebounced() = v`,
`getRaw() = v` and `isReady() = true`. -/
theorem zero_threshold_commits_immediately [BEq T] [LawfulBEq T] (d : Debouncer T)
    (now : Nat) (v : T) (h0 : d.getThreshold = 0) :
    (d.debounce now v).getDebounced = v ∧ (d.debounce now v).getRaw = v ∧
      (d.debounce now v).isReady = true := by
  have hc := debounce_of_commits d now v (commits_of_zero d now v h0)
  exact ⟨hc.1, debounce_m_value d now v, hc.2.1⟩

theorem zero_threshold_commits_immediately_witness :
    (Debouncer.new 0 : Debouncer Bool).getThreshold = 0 ∧
      ((Debouncer.new 0 : Debouncer Bool).debounce 7 true).getDebounced = true ∧
      ((Debouncer.new 0 : Debouncer Bool).debounce 7 true).getRaw = true ∧
      ((Debouncer.new 0 : Debouncer Bool).debounce 7 true).isReady = true :=
  ⟨rfl, zero_threshold_commits_immediately (Debouncer.new 0) 7 true rfl⟩

/-- C2. Settle timing: on a freshly constructed debouncer with threshold
`D > 0`, push `v` at `t0` and then again, unchanged, at the non-decreasing times
`ts`.  After the last push (at `tk`, the last of `ts`, or `t0` when `ts` is
empty) `isReady()` is true if and only if `tk - t0 ≥ D`, and when it is true
`getDebounced() = v`. -/
theorem settle_timing [BEq T] [LawfulBEq T] [Inhabited T] (D : Nat) (v : T) (t0 : Nat)
    (ts : List Nat) (hD : 0 < D) (hts : List.Chain (· ≤ ·) t0 ts) :
    (((new D : Debouncer T).pushAll ((t0 :: ts).map (fun t => (t, v)))).isReady = true ↔
        D ≤ ts.getLastD t0 - t0) ∧
      (((new D : Debouncer T).pushAll ((t0 :: ts).map (fun t => (t, v)))).isReady = true →
        ((new D : Debouncer T).pushAll ((t0 :: ts).map (fun t => (t, v)))).getDebounced = v) := by
  have h0 := debounce_new (T := T) D t0 v hD
  rw [List.map_cons, pushAll_cons]
  refine settle_invariant D t0 v hD ts _ t0 (debounce_m_value _ t0 v) h0.1 ?_ ?_ hts
  · rw [h0.2.1]
    simp
    omega
  · rw [h0.2.1]
    simp

/-- The scenario of the spec: threshold 50, `true` pushed at 0, 10, 20 leaves
the debouncer un-ready, the push at 60 makes it ready with debounced value
`true`. -/
theorem settle_timing_witness :
    (0 < 50 ∧ List.Chain (· ≤ ·) 0 [10, 20, 60]) ∧
      ((new 50 : Debouncer Bool).pushAll [(0, true), (10, true), (20, true)]).isReady = false ∧
      ((new 50 : Debouncer Bool).pushAll
        [(0, true), (10, true), (20, true), (60, true)]).isReady = true ∧
      ((new 50 : Debouncer Bool).pushAll
        [(0, true), (10, true), (20, true), (60, true)]).getDebounced = true := by
  have h1 := settle_timing (T := Bool) 50 true 0 [10, 20] (by decide) (by simp)
  have h2 := settle_timing (T := Bool) 50 true 0 [10, 20, 60] (by decide) (by simp)
  have hr : ((new 50 : Debouncer Bool).pushAll
      [(0, true), (10, true), (20, true), (60, true)]).isReady = true :=
    h2.1.2 (by decide)
  refine ⟨⟨by decide, by simp⟩, ?_, hr, h2.2 hr⟩
  cases hx : ((new 50 : Debouncer Bool).pushAll [(0, true), (10, true), (20, true)]).isReady
  · rfl
  · exact absurd (h1.1.1 hx) (by decide)

/-- C3. A value change restarts the settle clock: on a fresh debouncer with
threshold `D > 0` and values `A ≠ B`, push `A` at `t0`, `B` at `t1 ≥ t0`, then
`B` again at any times `ts` that are all less than `D` after `t1` (however long
after `t0`).  The debouncer is then still un-ready and the timer's reference
point is `t1`, the time of the most recent change of the raw value; and a push
of `B` at a time `t` with `t - t1 ≥ D` commits `B`: `isReady()` is true and
`getDebounced() = B`. -/
theorem change_restarts_clock [BEq T] [LawfulBEq T] [Inhabited T] (D : Nat) (A B : T)
    (t0 t1 : Nat) (ts : List Nat) (t : Nat) (hD : 0 < D) (hAB : A ≠ B) (h01 : t0 ≤ t1)
    (hts : ∀ s ∈ ts, s - t1 < D) :
    ((new D : Debouncer T).pushAll
        ((t0, A) :: (t1, B) :: ts.map (fun s => (s, B)))).isReady = false ∧
      ((new D : Debouncer T).pushAll
        ((t0, A) :: (t1, B) :: ts.map (fun s => (s, B)))).m_timer.startTime = t1 ∧
      (D ≤ t - t1 →
        (((new D : Debouncer T).pushAll
          ((t0, A) :: (t1, B) :: ts.map (fun s => (s, B)))).debounce t B).isReady = true ∧
        (((new D : Debouncer T).pushAll
          ((t0, A) :: (t1, B) :: ts.map (fun s => (s, B)))).debounce t B).getDebounced = B) := by
  have _ := h01
  have h0 := debounce_new (T := T) D t0 A hD
  have hA := debounce_m_value (new D : Debouncer T) t0 A
  rw [pushAll_cons, pushAll_cons]
  generalize (new D : Debouncer T).debounce t0 A = dA at h0 hA
  -- the push of `B` changes the raw value and restarts the timer at `t1`
  have hne : (B != dA.m_value) = true := by
    rw [hA]
    simpa using (Ne.symm hAB)
  have htB : (dA.debounce t1 B).m_timer = ⟨D, true, t1⟩ := by
    rw [debounce_m_timer, if_pos hne, h0.1]
    simp [Timer.start, Timer.restart]
  have hcB : dA.commits t1 B = false :=
    commits_of_ne dA t1 B (by simp [getThreshold, Timer.getDuration, h0.1, hD]) hne
  have hnB := debounce_of_not_commits dA t1 B hcB
  have hvB := debounce_m_value dA t1 B
  generalize dA.debounce t1 B = dB at htB hnB hvB
  have hinv := early_pushes_invariant D t1 B hD ts dB hvB htB (by rw [hnB.2.1]; exact h0.2.1) hts
  generalize dB.pushAll (ts.map (fun s => (s, B))) = dC at hinv
  refine ⟨hinv.2.2.1, by rw [hinv.2.1], fun ht => ?_⟩
  have hs := debounce_same_running dC D t1 t hD hinv.2.1
  rw [hinv.1] at hs
  have hc := debounce_of_commits dC t B (by rw [hs.2]; simpa using ht)
  exact ⟨hc.2.1, hc.1⟩

/-- The scenario of the spec: threshold 50, `A` at 0, `B` at 10, `B` at 40 is
not ready, `B` at 65 commits `B` (here `A = 1`, `B = 2`). -/
theorem change_restarts_clock_witness :
    (0 < 50 ∧ (1 : Nat) ≠ 2 ∧ 0 ≤ 10 ∧ ∀ s ∈ [40], s - 10 < 50) ∧
      ((new 50 : Debouncer Nat).pushAll [(0, 1), (10, 2), (40, 2)]).isReady = false ∧
      ((new 50 : Debouncer Nat).pushAll [(0, 1), (10, 2), (40, 2)]).m_timer.startTime = 10 ∧
      (((new 50 : Debouncer Nat).pushAll [(0, 1), (10, 2), (40, 2)]).debounce 65 2).isReady
        = true ∧
      (((new 50 : Debouncer Nat).pushAll [(0, 1), (10, 2), (40, 2)]).debounce 65 2).getDebounced
        = 2 := by
  have h := change_restarts_clock (T := Nat) 50 1 2 0 10 [40] 65 (by decide) (by decide)
    (by decide) (by decide)
  exact ⟨⟨by decide, by decide, by decide, by decide⟩, h.1, h.2.1, (h.2.2 (by decide)).1,
    (h.2.2 (by decide)).2⟩

/-- C4. Chatter rejection: in every state with threshold `D > 0`, for every
sequence of `debounce` calls each of which pushes a value different from the raw
value held just before it, at any clock readings, `getDebounced()`,
`isReady()` and the changed flag after every call of the sequence (after the
first `k` calls, for every `k`) are what they were before the sequence. -/
theorem chatter_rejected [BEq T] (d : Debouncer T) (calls : List (Nat × T))
    (hD : 0 < d.getThreshold) (hch : d.chatter calls = true) (k : Nat) :
    (d.pushAll (calls.take k)).getDebounced = d.getDebounced ∧
      (d.pushAll (calls.take k)).isReady = d.isReady ∧
      (d.pushAll (calls.take k)).m_changed = d.m_changed := by
  induction calls generalizing d k with
  | nil =>
    rw [List.take_nil]
    exact ⟨rfl, rfl, rfl⟩
  | cons c cs ih =>
    cases k with
    | zero => exact ⟨rfl, rfl, rfl⟩
    | succ k =>
      simp only [chatter, Bool.and_eq_true] at hch
      have hn := debounce_of_not_commits d c.1 c.2 (commits_of_ne d c.1 c.2 hD hch.1)
      have h := ih (d.debounce c.1 c.2) (by rw [debounce_getThreshold]; exact hD) hch.2 k
      rw [List.take_succ_cons, pushAll_cons]
      unfold getDebounced isReady at h ⊢
      rw [hn.1, hn.2.1, hn.2.2] at h
      exact h

/-- Alternating `1, 2, 1, 2` on a ready debouncer holding `7`, threshold 50,
all pushed at the same instant 100 ticks after the timer's reference point. -/
theorem chatter_rejected_witness :
    (0 < (Debouncer.mk 1 7 false true ⟨50, true, 0⟩ : Debouncer Nat).getThreshold ∧
      (Debouncer.mk 1 7 false true ⟨50, true, 0⟩ : Debouncer Nat).chatter
        [(100, 2), (100, 1), (100, 2), (100, 1)] = true) ∧
      ((Debouncer.mk 1 7 false true ⟨50, true, 0⟩ : Debouncer Nat).pushAll
        ([(100, 2), (100, 1), (100, 2), (100, 1)].take 3)).getDebounced = 7 ∧
      ((Debouncer.mk 1 7 false true ⟨50, true, 0⟩ : Debouncer Nat).pushAll
        ([(100, 2), (100, 1), (100, 2), (100, 1)].take 3)).isReady = true ∧
      ((Debouncer.mk 1 7 false true ⟨50, true, 0⟩ : Debouncer Nat).pushAll
        ([(100, 2), (100, 1), (100, 2), (100, 1)].take 3)).m_changed = false :=
  ⟨⟨by decide, by decide⟩,
    chatter_rejected (Debouncer.mk 1 7 false true ⟨50, true, 0⟩)
      [(100, 2), (100, 1), (100, 2), (100, 1)] (by decide) (by decide) 3⟩

/-- C5. The first commit is never a change: start from a freshly
constructed debouncer (any threshold, any value type) and make any sequence of
`debounce` calls at any clock readings.  If `isReady()` is still false after
them and the next `debounce` call makes it true, `hasChanged()` called at that
point returns false, whatever the committed value. -/
theorem first_commit_is_not_a_change [BEq T] [Inhabited T] (D : Nat)
    (calls : List (Nat × T)) (now : Nat) (v : T)
    (hnot : ((new D : Debouncer T).pushAll calls).isReady = false)
    (hready : (((new D : Debouncer T).pushAll calls).debounce now v).isReady = true) :
    (((new D : Debouncer T).pushAll calls).debounce now v).hasChanged.1 = false := by
  have _ := hready
  have hinv := pushAll_changed_imp_ready calls (new D : Debouncer T) (fun h => by cases h)
  unfold isReady at hnot
  show (((new D : Debouncer T).pushAll calls).debounce now v).m_changed = false
  rw [debounce_m_changed_of_not_ready _ now v hnot]
  cases hc : ((new D : Debouncer T).pushAll calls).m_changed
  · rfl
  · rw [hinv hc] at hnot
    cases hnot

/-- Threshold 50 over `Nat` (default value 0): 5 pushed at 0 and 10 is not
ready, the push of 5 at 60 is the first commit, of a value different from the
default, and `hasChanged()` is false. -/
theorem first_commit_is_not_a_change_witness :
    (((new 50 : Debouncer Nat).pushAll [(0, 5), (10, 5)]).isReady = false ∧
      (((new 50 : Debouncer Nat).pushAll [(0, 5), (10, 5)]).debounce 60 5).isReady = true) ∧
      (((new 50 : Debouncer Nat).pushAll [(0, 5), (10, 5)]).debounce 60 5).getDebounced = 5 ∧
      (((new 50 : Debouncer Nat).pushAll [(0, 5), (10, 5)]).debounce 60 5).hasChanged.1
        = false :=
  ⟨⟨by decide, by decide⟩, by decide,
    first_commit_is_not_a_change 50 [(0, 5), (10, 5)] 60 5 (by decide) (by decide)⟩

/-- C6. Exact characterisation of the sticky flag: in every state reached
from construction by `debounce`, `hasChanged`, `reset` and `setThreshold`
calls, the changed flag is true if and only if some `debounce` call of the
sequence committed (threshold zero or timer elapsed) a value different from the
debounced value of that moment while `isReady()` was already true before the
call, and no `reset()` or `hasChanged()` came after that call. -/
theorem changed_flag_characterisation [BEq T] [LawfulBEq T] [Inhabited T] (D : Nat)
    (ops : List (Op T)) :
    ((new D : Debouncer T).run ops).m_changed = true ↔ pendingChange (new D : Debouncer T) ops :=
  m_changed_iff_pendingChange (new D) rfl ops

/-- With threshold 0: after `debounce(1)`, `debounce(2)` the flag is up (the
second call is a change event); a `hasChanged()` after them takes it down. -/
theorem changed_flag_characterisation_witness :
    (((new 0 : Debouncer Nat).run [.debounce 0 1, .debounce 1 2]).m_changed = true ∧
      pendingChange (new 0 : Debouncer Nat) [.debounce 0 1, .debounce 1 2]) ∧
    (((new 0 : Debouncer Nat).run [.debounce 0 1, .debounce 1 2, .hasChanged]).m_changed = false ∧
      ¬ pendingChange (new 0 : Debouncer Nat) [.debounce 0 1, .debounce 1 2, .hasChanged]) := by
  have h1 := changed_flag_characterisation (T := Nat) 0 [.debounce 0 1, .debounce 1 2]
  have h2 := changed_flag_characterisation (T := Nat) 0
    [.debounce 0 1, .debounce 1 2, .hasChanged]
  have e1 : ((new 0 : Debouncer Nat).run [.debounce 0 1, .debounce 1 2]).m_changed = true := by
    decide
  have e2 : ((new 0 : Debouncer Nat).run
      [.debounce 0 1, .debounce 1 2, .hasChanged]).m_changed = false := by
    decide
  refine ⟨⟨e1, h1.1 e1⟩, e2, fun h => ?_⟩
  rw [h2.2 h] at e2
  cases e2

/-- C7, as stated, fails on a first commit: on a fresh `Debouncer<bool>` with
threshold 0, `debounce(true)` commits and changes the debounced value from
`false` to `true`, yet the next `hasChanged()` returns false. -/
theorem changing_commit_raises_flag_counterexample :
    (new 0 : Debouncer Bool).commits 0 true = true ∧
      (new 0 : Debouncer Bool).getDebounced = false ∧
      ((new 0 : Debouncer Bool).debounce 0 true).getDebounced = true ∧
      ((new 0 : Debouncer Bool).debounce 0 true).hasChanged.1 = false := by
  decide

/-- C7, amended. After a commit that changes the debounced value of a
debouncer that was already ready before the call (or whose changed flag was
already up), the first `hasChanged()` returns true and an immediate second
call returns false. -/
theorem changing_commit_raises_flag [BEq T] (d : Debouncer T) (now : Nat) (v : T)
    (hr : d.isReady = true ∨ d.m_changed = true)
    (hc : d.commits now v = true)
    (hne : (d.debounce now v).getDebounced ≠ d.getDebounced) :
    (d.debounce now v).hasChanged.1 = true ∧
      (d.debounce now v).hasChanged.2.hasChanged.1 = false := by
  refine ⟨?_, rfl⟩
  unfold commits at hc
  unfold getDebounced at hne
  unfold isReady at hr
  unfold hasChanged debounce
  unfold debounce at hne
  dsimp only at hc hne ⊢
  split_ifs at hc hne ⊢ <;> simp_all <;> exact hr.symm

/-- A ready `Debouncer<bool>` holding `false`, threshold 0: `debounce(true)`
commits a changed value; `hasChanged()` is true, then false. -/
theorem changing_commit_raises_flag_witness :
    (((Debouncer.mk false false false true ⟨0, true, 0⟩ : Debouncer Bool).isReady = true ∨
        (Debouncer.mk false false false true ⟨0, true, 0⟩ : Debouncer Bool).m_changed = true) ∧
      (Debouncer.mk false false false true ⟨0, true, 0⟩ : Debouncer Bool).commits 3 true = true ∧
      ((Debouncer.mk false false false true ⟨0, true, 0⟩ : Debouncer Bool).debounce 3
        true).getDebounced ≠
        (Debouncer.mk false false false true ⟨0, true, 0⟩ : Debouncer Bool).getDebounced) ∧
      ((Debouncer.mk false false false true ⟨0, true, 0⟩ : Debouncer Bool).debounce 3
        true).hasChanged.1 = true ∧
      ((Debouncer.mk false false false true ⟨0, true, 0⟩ : Debouncer Bool).debounce 3
        true).hasChanged.2.hasChanged.1 = false :=
  ⟨⟨Or.inl rfl, by decide, by decide⟩,
    changing_commit_raises_flag (Debouncer.mk false false false true ⟨0, true, 0⟩) 3 true
      (Or.inl rfl) (by decide) (by decide)⟩

/-- C8. The call `hasChanged()` is a self-resetting read: in every state it
returns the value the changed flag had before the call and leaves the flag
false, so a second call directly after it returns false; `getRaw()`,
`getDebounced()`, `isReady()` and `getThreshold()` are unchanged by the
call. -/
theorem hasChanged_self_resetting (d : Debouncer T) :
    d.hasChanged.1 = d.m_changed ∧ d.hasChanged.2.m_changed = false ∧
      d.hasChanged.2.hasChanged.1 = false ∧
      d.hasChanged.2.getRaw = d.getRaw ∧ d.hasChanged.2.getDebounced = d.getDebounced ∧
      d.hasChanged.2.isReady = d.isReady ∧ d.hasChanged.2.getThreshold = d.getThreshold :=
  ⟨rfl, rfl, rfl, rfl, rfl, rfl, rfl⟩

/-- C9. The ready flag is monotonic within a reset epoch: from every state
with `isReady()` true, the state after one call has `isReady()` false if and
only if the call is `reset()`; any `debounce(v)` at any clock reading, any
`hasChanged()` and any `setThreshold(d)` leave it true. -/
theorem ready_monotone [BEq T] (d : Debouncer T) (op : Op T) (hr : d.isReady = true) :
    (d.step op).isReady = false ↔ op = Op.reset := by
  unfold isReady at hr ⊢
  cases op with
  | debounce now v => simp [step, debounce_m_ready, hr]
  | hasChanged => simp [step, hasChanged, hr]
  | reset => simp [step, reset]
  | setThreshold th => simp [step, setThreshold, hr]

/-- A ready debouncer with threshold 50 and a running timer: a chattering
push, `hasChanged()` and `setThreshold(0)` keep it ready, `reset()` does not. -/
theorem ready_monotone_witness :
    (Debouncer.mk 1 1 false true ⟨50, true, 0⟩ : Debouncer Nat).isReady = true ∧
      (((Debouncer.mk 1 1 false true ⟨50, true, 0⟩ : Debouncer Nat).step
        (Op.debounce 10 2)).isReady = false ↔ Op.debounce 10 2 = (Op.reset : Op Nat)) ∧
      (((Debouncer.mk 1 1 false true ⟨50, true, 0⟩ : Debouncer Nat).step
        Op.reset).isReady = false ↔ (Op.reset : Op Nat) = Op.reset) :=
  ⟨rfl, ready_monotone (Debouncer.mk 1 1 false true ⟨50, true, 0⟩) (Op.debounce 10 2) rfl,
    ready_monotone (Debouncer.mk 1 1 false true ⟨50, true, 0⟩) Op.reset rfl⟩

/-- C10. The debounced value only takes values observed in raw: in every
state, `getDebounced()` after `debounce(v)` is `getDebounced()` before the call
or it is `v`, and then it equals `getRaw()`; hence in every state reached from
construction by any calls, `getDebounced()` is the default-constructed value
or a value passed to one of the `debounce` calls made. -/
theorem debounced_only_from_raw [BEq T] [LawfulBEq T] [Inhabited T] :
    (∀ (d : Debouncer T) (now : Nat) (v : T),
      (d.debounce now v).getDebounced = d.getDebounced ∨
        ((d.debounce now v).getDebounced = v ∧
          (d.debounce now v).getDebounced = (d.debounce now v).getRaw)) ∧
    (∀ (D : Nat) (ops : List (Op T)),
      ((new D : Debouncer T).run ops).getDebounced = default ∨
        ∃ now v, Op.debounce now v ∈ ops ∧ ((new D : Debouncer T).run ops).getDebounced = v) := by
  refine ⟨debounce_m_debounced_cases, fun D ops => ?_⟩
  unfold getDebounced
  induction ops using List.reverseRecOn with
  | nil => exact Or.inl rfl
  | append_singleton xs x ih =>
    rw [run_snoc]
    rcases step_m_debounced_cases ((new D : Debouncer T).run xs) x with h | ⟨now, v, hx, h⟩
    · rw [h]
      rcases ih with h1 | ⟨now, v, hmem, h1⟩
      · exact Or.inl h1
      · exact Or.inr ⟨now, v, List.mem_append_left _ hmem, h1⟩
    · exact Or.inr ⟨now, v, by simp [hx], h⟩

/-- Over `Nat`, threshold 0: after `debounce(4)`, `reset()`, `debounce(9)` the
debounced value is 9, a pushed value. -/
theorem debounced_only_from_raw_witness :
    ((new 0 : Debouncer Nat).run [.debounce 0 4, .reset, .debounce 1 9]).getDebounced = 9 ∧
      (((new 0 : Debouncer Nat).run [.debounce 0 4, .reset, .debounce 1 9]).getDebounced
          = default ∨
        ∃ now v, Op.debounce now v ∈ [Op.debounce 0 4, Op.reset, Op.debounce 1 9] ∧
          ((new 0 : Debouncer Nat).run [.debounce 0 4, .reset, .debounce 1 9]).getDebounced
            = v) :=
  ⟨by decide,
    (debounced_only_from_raw (T := Nat)).2 0 [.debounce 0 4, .reset, .debounce 1 9]⟩

/-- C11. The raw value follows every push: in every state, for every value
`v` and every clock reading, `getRaw()` after `debounce(v)` is `v`, whether or
not the call commits and whether or not `v` equals the previous raw value
(for a value type with lawful equality). -/
theorem raw_follows_push [BEq T] [LawfulBEq T] (d : Debouncer T) (now : Nat) (v : T) :
    (d.debounce now v).getRaw = v :=
  debounce_m_value d now v

/-- Threshold 50, ready, raw 1: a changed push (2, no commit) and an unchanged
push (1, commits) both leave the pushed value in raw. -/
theorem raw_follows_push_witness :
    ((Debouncer.mk 1 7 false true ⟨50, true, 0⟩ : Debouncer Nat).debounce 100 2).getRaw = 2 ∧
      ((Debouncer.mk 1 7 false true ⟨50, true, 0⟩ : Debouncer Nat).debounce 100 1).getRaw = 1 :=
  ⟨raw_follows_push (Debouncer.mk 1 7 false true ⟨50, true, 0⟩) 100 2,
    raw_follows_push (Debouncer.mk 1 7 false true ⟨50, true, 0⟩) 100 1⟩

/-- C12. The call `reset()` clears readiness and the change flag whatever
the prior state: after `reset()`, `isReady()` is false and the next
`hasChanged()` returns false. -/
theorem reset_clears_flags (d : Debouncer T) :
    d.reset.isReady = false ∧ d.reset.hasChanged.1 = false :=
  ⟨rfl, rfl⟩

/-- C13. The call `reset()` keeps the values and the configuration: in every
state `getRaw()`, `getDebounced()` and `getThreshold()` after `reset()` are what
they were before it. -/
theorem reset_keeps_values (d : Debouncer T) :
    d.reset.getRaw = d.getRaw ∧ d.reset.getDebounced = d.getDebounced ∧
      d.reset.getThreshold = d.getThreshold :=
  ⟨rfl, rfl, rfl⟩

/-- C14. The debounced value before any commit is the default value: in
every state reached from construction by `debounce`, `hasChanged` and
`setThreshold` calls (no `reset`), if `isReady()` is false then
`getDebounced()` is the default-constructed value. -/
theorem debounced_default_before_commit [BEq T] [Inhabited T] (D : Nat) (ops : List (Op T))
    (hno : Op.reset ∉ ops) (hr : ((new D : Debouncer T).run ops).isReady = false) :
    ((new D : Debouncer T).run ops).getDebounced = default := by
  unfold isReady at hr
  unfold getDebounced
  induction ops using List.reverseRecOn with
  | nil => rfl
  | append_singleton xs x ih =>
    rw [run_snoc] at hr ⊢
    have hx : x ≠ Op.reset := fun h => hno (by simp [h])
    exact step_not_ready_debounced _ x default hx
      (ih (fun h => hno (List.mem_append_left _ h))) hr

/-- Threshold 50 over `Nat`: after `debounce(5)` at 0, `hasChanged()`,
`setThreshold(60)` and `debounce(6)` at 10 nothing is committed and the
debounced value is still 0. -/
theorem debounced_default_before_commit_witness :
    (Op.reset ∉ [Op.debounce 0 5, Op.hasChanged, Op.setThreshold 60, Op.debounce 10 (6 : Nat)] ∧
      ((new 50 : Debouncer Nat).run
        [.debounce 0 5, .hasChanged, .setThreshold 60, .debounce 10 6]).isReady = false) ∧
      ((new 50 : Debouncer Nat).run
        [.debounce 0 5, .hasChanged, .setThreshold 60, .debounce 10 6]).getDebounced = default :=
  ⟨⟨by simp, by decide⟩,
    debounced_default_before_commit 50
      [.debounce 0 5, .hasChanged, .setThreshold 60, .debounce 10 6] (by simp) (by decide)⟩

/-- C15, as stated, fails after the first push: on a fresh `Debouncer` over
`Nat` with threshold 50, after `debounce(5)` at time 0 nothing is committed
(`isReady()` is false) and `getRaw()` is 5, not the default value 0. -/
theorem raw_default_before_commit_counterexample :
    ((new 50 : Debouncer Nat).pushAll [(0, 5)]).isReady = false ∧
      ((new 50 : Debouncer Nat).pushAll [(0, 5)]).getRaw = 5 ∧
      ((new 50 : Debouncer Nat).pushAll [(0, 5)]).getRaw ≠ default := by
  decide

/-- C15, amended. On a freshly constructed debouncer `getRaw()` is the
default-constructed value as long as no `debounce` call has been made; after
any sequence of `debounce` calls it is the value pushed by the most recent
call, committed or not (for a value type with lawful equality). -/
theorem raw_default_before_push [BEq T] [LawfulBEq T] [Inhabited T] (D : Nat) :
    (new D : Debouncer T).getRaw = default ∧
      ∀ (calls : List (Nat × T)) (now : Nat) (v : T),
        ((new D : Debouncer T).pushAll (calls ++ [(now, v)])).getRaw = v := by
  refine ⟨rfl, fun calls now v => ?_⟩
  rw [pushAll_append]
  exact debounce_m_value _ now v

/-- Over `Nat`, threshold 50: raw is 0 on the fresh debouncer and 6 after the
pushes of 5 at 0 and 6 at 10. -/
theorem raw_default_before_push_witness :
    (new 50 : Debouncer Nat).getRaw = 0 ∧
      ((new 50 : Debouncer Nat).pushAll ([(0, 5)] ++ [(10, 6)])).getRaw = 6 :=
  ⟨(raw_default_before_push (T := Nat) 50).1,
    (raw_default_before_push (T := Nat) 50).2 [(0, 5)] 10 6⟩

/-- C16. The call `setThreshold(d)` only reconfigures the timer: in every
state, after it `getThreshold()` returns `d`, and `getRaw()`, `getDebounced()`,
`isReady()`, the changed flag and the timer's started state and reference
point are what they were. -/
theorem setThreshold_only_reconfigures (d : Debouncer T) (th : Nat) :
    (d.setThreshold th).getThreshold = th ∧
      (d.setThreshold th).getRaw = d.getRaw ∧
      (d.setThreshold th).getDebounced = d.getDebounced ∧
      (d.setThreshold th).isReady = d.isReady ∧
      (d.setThreshold th).m_changed = d.m_changed ∧
      (d.setThreshold th).m_timer.running = d.m_timer.running ∧
      (d.setThreshold th).m_timer.startTime = d.m_timer.startTime :=
  ⟨rfl, rfl, rfl, rfl, rfl, rfl, rfl⟩

end Debouncer

namespace DebouncedSwitch

/-- C17. Switch polarity end to end: for a `DebouncedSwitch` with threshold
0, any pull-up flag and any pin level returned by the read (in particular
`LOW = 0` and `HIGH = 1`), after `debounce()` the switch `isClosed()` if and
only if the level differs from the pull-up flag; `isClosed()` is
`getDebounced()`; and in every state `isOpen()` is the negation of
`isClosed()`, so exactly one of the two holds. -/
theorem switch_polarity (s : DebouncedSwitch) (now : Nat) (level : Int)
    (h0 : s.toDebouncer.getThreshold = 0) :
    ((s.debounce now level).isClosed = true ↔ level ≠ boolAsInt s.m_pullup) ∧
      (s.debounce now level).isClosed = (s.debounce now level).toDebouncer.getDebounced ∧
      (∀ s1 : DebouncedSwitch, s1.isOpen = !s1.isClosed) ∧
      (∀ s1 : DebouncedSwitch, (s1.isOpen = true ∧ s1.isClosed = false) ∨
        (s1.isOpen = false ∧ s1.isClosed = true)) := by
  refine ⟨?_, rfl, fun _ => rfl, fun s1 => ?_⟩
  · unfold isClosed debounce Debouncer.getDebounced
    dsimp only
    rw [(Debouncer.debounce_of_commits s.toDebouncer now _
      (Debouncer.commits_of_zero s.toDebouncer now _ h0)).1]
    by_cases h : level = boolAsInt s.m_pullup <;> simp [h, LOW, HIGH]
  · unfold isOpen isClosed
    cases s1.toDebouncer.getDebounced <;> simp

/-- The four wirings at threshold 0: pull-up with `LOW` and pull-down with
`HIGH` are closed, pull-up with `HIGH` and pull-down with `LOW` are open. -/
theorem switch_polarity_witness :
    (new 2 0 true).toDebouncer.getThreshold = 0 ∧
      ((new 2 0 true).debounce 5 LOW).isClosed = true ∧
      ((new 2 0 true).debounce 5 HIGH).isClosed = false ∧
      ((new 2 0 false).debounce 5 HIGH).isClosed = true ∧
      ((new 2 0 false).debounce 5 LOW).isClosed = false ∧
      (((new 2 0 true).debounce 5 LOW).isClosed = true ↔ LOW ≠ boolAsInt (new 2 0 true).m_pullup) :=
  ⟨rfl, by decide, by decide, by decide, by decide,
    (switch_polarity (new 2 0 true) 5 LOW rfl).1⟩

end DebouncedSwitch

namespace Debouncer

variable {T : Type}

/-- C18. Only a commit touches the output: in every state with threshold
`D > 0`, for every value and every clock reading at which the timer, after the
start/restart handling of the call, has not elapsed, `debounce(v)` leaves
`getDebounced()`, `isReady()` and the changed flag exactly as they were. -/
theorem only_commit_touches_output [BEq T] (d : Debouncer T) (now : Nat) (v : T)
    (hD : 0 < d.getThreshold) (hne : (d.timerAfterStart now v).check now = false) :
    (d.debounce now v).getDebounced = d.getDebounced ∧
      (d.debounce now v).isReady = d.isReady ∧
      (d.debounce now v).m_changed = d.m_changed := by
  unfold getThreshold Timer.getDuration at hD
  have hset : (d.timerAfterStart now v).isSet = true := by
    unfold Timer.isSet
    rw [timerAfterStart_duration]
    simp
    omega
  have hc : d.commits now v = false := by
    rw [commits_eq_timerAfterStart, hset, hne]
    rfl
  exact debounce_of_not_commits d now v hc

/-- Ready with debounced value 7 and raw 1, threshold 50, timer running since
0: an unchanged push at 30 (not elapsed) leaves the output as it was. -/
theorem only_commit_touches_output_witness :
    (0 < (Debouncer.mk 1 7 true true ⟨50, true, 0⟩ : Debouncer Nat).getThreshold ∧
      ((Debouncer.mk 1 7 true true ⟨50, true, 0⟩ : Debouncer Nat).timerAfterStart 30 1).check 30
        = false) ∧
      ((Debouncer.mk 1 7 true true ⟨50, true, 0⟩ : Debouncer Nat).debounce 30 1).getDebounced = 7 ∧
      ((Debouncer.mk 1 7 true true ⟨50, true, 0⟩ : Debouncer Nat).debounce 30 1).isReady = true ∧
      ((Debouncer.mk 1 7 true true ⟨50, true, 0⟩ : Debouncer Nat).debounce 30 1).m_changed = true :=
  ⟨⟨by decide, by decide⟩,
    only_commit_touches_output (Debouncer.mk 1 7 true true ⟨50, true, 0⟩) 30 1 (by decide)
      (by decide)⟩

/-- C19. A pending change implies readiness: in every state reached from
construction by any sequence of `debounce`, `hasChanged`, `reset` and
`setThreshold` calls, if the changed flag is true then `isReady()` is true, so
`hasChanged()` never returns true on an un-ready debouncer. -/
theorem changed_implies_ready [BEq T] [Inhabited T] (D : Nat) (ops : List (Op T))
    (hc : ((new D : Debouncer T).run ops).hasChanged.1 = true) :
    ((new D : Debouncer T).run ops).isReady = true := by
  unfold isReady
  change ((new D : Debouncer T).run ops).m_changed = true at hc
  revert hc
  induction ops using List.reverseRecOn with
  | nil =>
    intro hc
    cases hc
  | append_singleton xs x ih =>
    rw [run_snoc]
    exact step_changed_imp_ready _ x ih

/-- With threshold 0: after `debounce(1)`, `debounce(2)` the flag is up and
the debouncer is ready. -/
theorem changed_implies_ready_witness :
    ((new 0 : Debouncer Nat).run [.debounce 0 1, .debounce 1 2]).hasChanged.1 = true ∧
      ((new 0 : Debouncer Nat).run [.debounce 0 1, .debounce 1 2]).isReady = true :=
  ⟨by decide, changed_implies_ready 0 [.debounce 0 1, .debounce 1 2] (by decide)⟩

end Debouncer

end Debounce
